import Mathlib

/-!
Verification development for the simulated Notifier module (hal/Notifier.cpp).

The embedding models the per-alarm state (struct Notifier), the handle store,
and every exposed operation as pure functions over an association list of
handle/object pairs, kept in the store enumeration order. Concurrency is
modelled by making each loop iteration of the blocking wait, and each retry
round of the wakeup barrier, observe an explicitly supplied state: the states
a real execution would see under the relevant locks.

Field correspondence with the specification vocabulary:
  waitTime = deadline, active = alive, running = armed, count = wakeCount.
-/

namespace HALNotifier

/-- Largest uint64 value; the sentinel deadline that disarms an alarm. -/
def UINT64_MAX : Nat := 2 ^ 64 - 1

/-- The invalid handle constant (HAL_kInvalidHandle). -/
def HAL_kInvalidHandle : Nat := 0

/-- Modelled from the spec: the allocation-failure error code written by create
when the registry is exhausted. The numeric value lives in hal/Errors.h, which
is not under src/; only its being non-zero matters to the claims. -/
def HAL_HANDLE_ERROR : Int := -1098

/-- The per-alarm mutable state (struct Notifier in the source). The source
leaves waitTime uninitialized at construction, so creation takes the
indeterminate initial value as an explicit parameter. -/
structure Notifier where
  name : String
  waitTime : Nat
  active : Bool
  running : Bool
  count : Nat
  deriving Repr, DecidableEq

/-- The notifier store: handle/object pairs in enumeration order. -/
abbrev Store := List (Nat × Notifier)

/-- Store lookup (UnlimitedHandleResource Get): first entry with the handle. -/
def lookupN : Store → Nat → Option Notifier
  | [], _ => none
  | p :: rest, h => if p.1 = h then some p.2 else lookupN rest h

/-- Apply f to the entry with the given handle, keeping order and keys. -/
def modifyN (f : Notifier → Notifier) (h : Nat) : Store → Store
  | [] => []
  | p :: rest => (if p.1 = h then (p.1, f p.2) else p) :: modifyN f h rest

/-- Remove the entry with the given handle (UnlimitedHandleResource Free). -/
def removeN (h : Nat) : Store → Store
  | [] => []
  | p :: rest => if p.1 = h then removeN h rest else p :: removeN h rest

/-- Modelled from the spec: capacity of the handle registry (the generic handle
utility is not under src/; handles carry a 16-bit signed index, giving 2^15
slots, and allocation fails when no free slot remains). -/
def kMaxNotifierSlots : Nat := 2 ^ 15

/-- Largest handle currently in the store; used to pick a fresh handle. -/
def maxKey : Store → Nat
  | [] => 0
  | p :: rest => max p.1 (maxKey rest)

/-- Modelled from the spec: the registry allocates a fresh, never-reused handle
for a new object, or fails when exhausted. -/
def allocateHandle (s : Store) : Option Nat :=
  if s.length < kMaxNotifierSlots then some (maxKey s + 1) else none

/-- HAL_InitializeNotifier: allocate a new Notifier. On registry exhaustion it
writes HAL_HANDLE_ERROR to status and returns the invalid handle; otherwise the
new object has active = true, running = false, count = 0 (waitTime is the
indeterminate value w0). Returns (store, handle, status). -/
def HAL_InitializeNotifier (s : Store) (w0 : Nat) (status : Int) : Store × Nat × Int :=
  match allocateHandle s with
  | none => (s, HAL_kInvalidHandle, HAL_HANDLE_ERROR)
  | some h =>
    (s ++ [(h, { name := "", waitTime := w0, active := true, running := false, count := 0 })],
     h, status)

/-- HAL_SetNotifierName: replace the name under the object lock; silent no-op
when the handle is unknown. Returns (store, status). -/
def HAL_SetNotifierName (s : Store) (h : Nat) (nm : String) (status : Int) : Store × Int :=
  match lookupN s h with
  | none => (s, status)
  | some _ => (modifyN (fun n => { n with name := nm }) h s, status)

/-- HAL_StopNotifier: set active = false, running = false, then notify the
object condition variable. The Bool records whether a notification happened.
Returns (store, notified, status). -/
def HAL_StopNotifier (s : Store) (h : Nat) (status : Int) : Store × Bool × Int :=
  match lookupN s h with
  | none => (s, false, status)
  | some _ => (modifyN (fun n => { n with active := false, running := false }) h s, true, status)

/-- HAL_CleanNotifier: remove the handle from the store; the freed object is
additionally deactivated and notified (visible only to waiters still holding a
reference, so not part of the store result). Returns (store, notified, status). -/
def HAL_CleanNotifier (s : Store) (h : Nat) (status : Int) : Store × Bool × Int :=
  match lookupN s h with
  | none => (s, false, status)
  | some _ => (removeN h s, true, status)

/-- HAL_UpdateNotifierAlarm: set waitTime to triggerTime and running to
(triggerTime != UINT64_MAX) under the lock, then always notify the condition
variable. Returns (store, notified, status). -/
def HAL_UpdateNotifierAlarm (s : Store) (h : Nat) (triggerTime : Nat) (status : Int) :
    Store × Bool × Int :=
  match lookupN s h with
  | none => (s, false, status)
  | some _ =>
    (modifyN (fun n => { n with waitTime := triggerTime,
                                running := triggerTime != UINT64_MAX }) h s, true, status)

/-- HAL_CancelNotifierAlarm: set running = false under the lock; no
notification. Returns (store, notified, status). -/
def HAL_CancelNotifierAlarm (s : Store) (h : Nat) (status : Int) : Store × Bool × Int :=
  match lookupN s h with
  | none => (s, false, status)
  | some _ => (modifyN (fun n => { n with running := false }) h s, false, status)

/-- One iteration of the blocking wait loop, as observed at the loop head after
reacquiring the object lock: the object state, the process-wide paused flag,
and the sampled current time (HAL_GetFPGATime). -/
structure WaitIter where
  notifier : Notifier
  paused : Bool
  curTime : Nat
  deriving Repr, DecidableEq

/-- Outcome of the wait loop: fired with the sampled time and the object state
after running is cleared, stopped because active became false, or still pending
when the supplied iteration trace ran out. -/
inductive WaitOutcome where
  | fired (t : Nat) (final : Notifier)
  | stopped
  | pending
  deriving Repr, DecidableEq

/-- The wait loop of HAL_WaitForNotifierAlarm: while active, sample the time;
if running and the sample reached the deadline, clear running and return the
sample; otherwise sleep and loop on the next observed state. -/
def waitLoop : List WaitIter → WaitOutcome
  | [] => .pending
  | it :: rest =>
    if it.notifier.active = true then
      if it.notifier.running = true ∧ it.notifier.waitTime ≤ it.curTime then
        .fired it.curTime { it.notifier with running := false }
      else waitLoop rest
    else .stopped

/-- Sleep duration (in microseconds) computed by a non-firing wait iteration:
the long fixed 1000-second sleep when not running or paused, otherwise the
remaining time to the deadline. The source computes seconds as a double; the
model keeps the exact microsecond quantity. -/
def sleepMicros (n : Notifier) (paused : Bool) (curTime : Nat) : Nat :=
  if n.running = false ∨ paused = true then 1000 * 1000000
  else n.waitTime - curTime

/-- Entry effect of HAL_WaitForNotifierAlarm on the store: increment count when
the handle is known, nothing otherwise. -/
def waitEnter (s : Store) (h : Nat) : Store :=
  match lookupN s h with
  | none => s
  | some _ => modifyN (fun n => { n with count := n.count + 1 }) h s

/-- Effect on the waited object when the loop fires: running is cleared. -/
def waitFireEffect (s : Store) (h : Nat) : Store :=
  match lookupN s h with
  | none => s
  | some _ => modifyN (fun n => { n with running := false }) h s

/-- Value returned by the wait call for a given loop outcome: the sampled time
on fire, 0 when active became false. -/
def waitReturn : WaitOutcome → Option Nat
  | .fired t _ => some t
  | .stopped => some 0
  | .pending => none

/-- HAL_WaitForNotifierAlarm return value and status: 0 immediately when the
handle is unknown, otherwise the loop outcome on the observed iteration trace.
The status output is never written by this function. -/
def HAL_WaitForNotifierAlarm (s : Store) (h : Nat) (trace : List WaitIter) (status : Int) :
    Option Nat × Int :=
  match lookupN s h with
  | none => (some 0, status)
  | some _ => (waitReturn (waitLoop trace), status)

/-- Snapshot predicate of WakeupWaitNotifiers: the object is running and either
has never been waited on (count 0) or its deadline has passed. -/
def dueAtStart (curTime : Nat) (n : Notifier) : Bool :=
  n.running && (n.count == 0 || decide (n.waitTime ≤ curTime))

/-- Snapshot pass of WakeupWaitNotifiers: collect (handle, count) for every due
object, in enumeration order. -/
def wakeupSnapshot (curTime : Nat) : Store → List (Nat × Nat)
  | [] => []
  | p :: rest =>
    if dueAtStart curTime p.2 then (p.1, p.2.count) :: wakeupSnapshot curTime rest
    else wakeupSnapshot curTime rest

/-- Retry-round test of WakeupWaitNotifiers: a pending entry is kept exactly
when the object is still registered, active, and its count equals the
snapshotted value. -/
def shouldKeep (s : Store) (e : Nat × Nat) : Bool :=
  match lookupN s e.1 with
  | some n => n.active && n.count == e.2
  | none => false

/-- One retry round over the pending set against the currently observed store. -/
def barrierStep (s : Store) (w : List (Nat × Nat)) : List (Nat × Nat) :=
  w.filter (shouldKeep s)

/-- The retry loop of WakeupWaitNotifiers: each round observes a store state,
drops entries no longer worth waiting for, and returns (with the round index)
once the pending set is empty; none when the observations run out first. -/
def barrierRun : List Store → List (Nat × Nat) → Option Nat
  | [], _ => none
  | s :: rest, w =>
    if (barrierStep s w).isEmpty then some 0
    else
      match barrierRun rest (barrierStep s w) with
      | some k => some (k + 1)
      | none => none

/-- Iterated retry rounds: the pending set left after folding the given store
observations through barrierStep. -/
def iterSteps : List Store → List (Nat × Nat) → List (Nat × Nat)
  | [], w => w
  | s :: rest, w => iterSteps rest (barrierStep s w)

/-- WakeupWaitNotifiers: snapshot against the store and time at entry, then run
the retry loop against the per-round store observations. -/
def WakeupWaitNotifiers (s0 : Store) (curTime : Nat) (rounds : List Store) : Option Nat :=
  barrierRun rounds (wakeupSnapshot curTime s0)

/-- Process-wide state: the store plus the paused flag. -/
structure GlobalState where
  store : Store
  paused : Bool
  deriving Repr, DecidableEq

/-- PauseNotifiers: set the process-wide paused flag; nothing else changes. -/
def PauseNotifiers (g : GlobalState) : GlobalState := { g with paused := true }

/-- WakeupNotifiers: notify every registered object condition variable; the
result lists the notified handles. -/
def WakeupNotifiers (s : Store) : List Nat := s.map (fun p => p.1)

/-- ResumeNotifiers: clear the paused flag, then wake every object. -/
def ResumeNotifiers (g : GlobalState) : GlobalState × List Nat :=
  ({ g with paused := false }, WakeupNotifiers g.store)

/-- Helper fold of HALSIM_GetNextNotifierTimeout, threading the running
minimum exactly as the source lambda does. -/
def nextTimeoutAux : Store → Nat → Nat
  | [], timeout => timeout
  | p :: rest, timeout =>
    nextTimeoutAux rest
      (if p.2.active = true ∧ p.2.running = true ∧ p.2.waitTime < timeout then p.2.waitTime
       else timeout)

/-- HALSIM_GetNextNotifierTimeout: fold the store with the sentinel as the
initial minimum. -/
def HALSIM_GetNextNotifierTimeout (s : Store) : Nat :=
  nextTimeoutAux s UINT64_MAX

/-- HALSIM_GetNumNotifiers: count of active objects. -/
def HALSIM_GetNumNotifiers : Store → Nat
  | [] => 0
  | p :: rest => (if p.2.active = true then 1 else 0) + HALSIM_GetNumNotifiers rest

/-- One entry written by HALSIM_GetNotifierInfo. -/
structure NotifierInfo where
  handle : Nat
  name : String
  timeout : Nat
  running : Bool
  deriving Repr, DecidableEq

/-- Index packed in the low 16 bits of a handle (getHandleIndex of the handle
utility, which is not under src/). -/
def getHandleIndex (h : Nat) : Nat := h % 2 ^ 16

/-- Name written for an entry: the stored name, or the generated placeholder
when the name is empty. -/
def resolveName (h : Nat) (n : Notifier) : String :=
  if n.name = "" then "Notifier" ++ toString (getHandleIndex h) else n.name

/-- The info record written for one live store entry. -/
def mkInfo (p : Nat × Notifier) : NotifierInfo :=
  { handle := p.1, name := resolveName p.1 p.2, timeout := p.2.waitTime, running := p.2.running }

/-- Single pass of HALSIM_GetNotifierInfo: num counts active entries; an entry
is written only while num < size. Returns (entries written, final num). -/
def notifierInfoAux (size : Nat) : Store → Nat → List NotifierInfo × Nat
  | [], num => ([], num)
  | p :: rest, num =>
    if p.2.active = true then
      if num < size then
        let r := notifierInfoAux size rest (num + 1)
        (mkInfo p :: r.1, r.2)
      else notifierInfoAux size rest (num + 1)
    else notifierInfoAux size rest num

/-- HALSIM_GetNotifierInfo: fill at most size entries, return the true count of
active objects. -/
def HALSIM_GetNotifierInfo (s : Store) (size : Nat) : List NotifierInfo × Nat :=
  notifierInfoAux size s 0

/-- The live (active) entries of the store, in enumeration order. -/
def liveEntries : Store → Store
  | [] => []
  | p :: rest => if p.2.active = true then p :: liveEntries rest else liveEntries rest

/-- The state-machine alphabet for the lifecycle invariants: every exposed
mutating operation, with the wait call split into its entry effect (count
increment) and its fire effect (running cleared). -/
inductive Op where
  | create (w0 : Nat)
  | setName (h : Nat) (nm : String)
  | stop (h : Nat)
  | clean (h : Nat)
  | update (h : Nat) (t : Nat)
  | cancel (h : Nat)
  | waitEnter (h : Nat)
  | waitFire (h : Nat)
  deriving Repr, DecidableEq

/-- Store effect of one operation. -/
def applyOp (s : Store) : Op → Store
  | .create w0 => (HAL_InitializeNotifier s w0 0).1
  | .setName h nm => (HAL_SetNotifierName s h nm 0).1
  | .stop h => (HAL_StopNotifier s h 0).1
  | .clean h => (HAL_CleanNotifier s h 0).1
  | .update h t => (HAL_UpdateNotifierAlarm s h t 0).1
  | .cancel h => (HAL_CancelNotifierAlarm s h 0).1
  | .waitEnter h => waitEnter s h
  | .waitFire h => waitFireEffect s h

/-! Store helper lemmas. -/

theorem lookupN_modifyN_self (f : Notifier → Notifier) (h : Nat) (s : Store) :
    lookupN (modifyN f h s) h = (lookupN s h).map f := by
  induction s with
  | nil => rfl
  | cons p rest ih =>
    by_cases hp : p.1 = h
    · simp [modifyN, lookupN, hp]
    · simp [modifyN, lookupN, hp, ih]

theorem lookupN_modifyN_of_ne (f : Notifier → Notifier) (h h2 : Nat) (s : Store)
    (hne : h2 ≠ h) : lookupN (modifyN f h s) h2 = lookupN s h2 := by
  have hh2 : h ≠ h2 := fun hq => hne hq.symm
  induction s with
  | nil => rfl
  | cons p rest ih =>
    by_cases hp : p.1 = h
    · simp [modifyN, lookupN, hp, hh2, ih]
    · by_cases hq : p.1 = h2
      · simp [modifyN, lookupN, hp, hq, hne, ih]
      · simp [modifyN, lookupN, hp, hq, ih]

theorem keys_modifyN (f : Notifier → Notifier) (h : Nat) (s : Store) :
    (modifyN f h s).map (fun p => p.1) = s.map (fun p => p.1) := by
  induction s with
  | nil => rfl
  | cons p rest ih =>
    by_cases hp : p.1 = h
    · simp [modifyN, hp, ih]
    · simp [modifyN, hp, ih]

theorem lookupN_removeN_self (h : Nat) (s : Store) :
    lookupN (removeN h s) h = none := by
  induction s with
  | nil => rfl
  | cons p rest ih =>
    by_cases hp : p.1 = h
    · simp [removeN, hp, ih]
    · simp [removeN, lookupN, hp, ih]

theorem lookupN_removeN_of_ne (h h2 : Nat) (s : Store) (hne : h2 ≠ h) :
    lookupN (removeN h s) h2 = lookupN s h2 := by
  have hh2 : h ≠ h2 := fun hq => hne hq.symm
  induction s with
  | nil => rfl
  | cons p rest ih =>
    by_cases hp : p.1 = h
    · simp [removeN, lookupN, hp, hh2, ih]
    · by_cases hq : p.1 = h2
      · simp [removeN, lookupN, hp, hq, hne, ih]
      · simp [removeN, lookupN, hp, hq, ih]

theorem lookupN_append (s t : Store) (h : Nat) :
    lookupN (s ++ t) h =
      match lookupN s h with
      | some n => some n
      | none => lookupN t h := by
  induction s with
  | nil => rfl
  | cons p rest ih =>
    by_cases hp : p.1 = h
    · simp [lookupN, hp]
    · simp [lookupN, hp, ih]

theorem key_le_maxKey (s : Store) (p : Nat × Notifier) (hp : p ∈ s) :
    p.1 ≤ maxKey s := by
  induction s with
  | nil => cases hp
  | cons q rest ih =>
    cases hp with
    | head =>
      simp only [maxKey]
      exact le_max_left _ _
    | tail _ hmem =>
      exact le_trans (ih hmem) (by simp only [maxKey]; exact le_max_right _ _)

theorem lookupN_eq_none_of_fresh (s : Store) (k : Nat) (hk : ∀ p ∈ s, p.1 ≠ k) :
    lookupN s k = none := by
  induction s with
  | nil => rfl
  | cons p rest ih =>
    have hp : p.1 ≠ k := hk p (by simp)
    simp only [lookupN, hp, if_neg hp]
    exact ih (fun q hq => hk q (by simp [hq]))

theorem lookupN_fresh_maxKey (s : Store) : lookupN s (maxKey s + 1) = none := by
  apply lookupN_eq_none_of_fresh
  intro p hp he
  have := key_le_maxKey s p hp
  omega

/-! Concrete states used by witnesses. -/

/-- A concrete armed, live notifier. -/
def demoNotifier : Notifier :=
  { name := "", waitTime := 40, active := true, running := true, count := 2 }

/-- A concrete store with one armed live object and one stopped object. -/
def demoStore : Store :=
  [(1, demoNotifier),
   (2, { name := "b", waitTime := 7, active := false, running := false, count := 0 })]

/-- Lookup misses a replicated entry whose key differs. -/
theorem lookupN_replicate_ne (n : Nat) (x : Nat × Notifier) (h : Nat) (hne : x.1 ≠ h) :
    lookupN (List.replicate n x) h = none := by
  induction n with
  | zero => rfl
  | succ m ih => simp [List.replicate_succ, lookupN, hne, ih]

/-- A store that exhausts the handle registry. -/
def bigStore : Store := List.replicate kMaxNotifierSlots (0, demoNotifier)

/-- C4: for every known handle and deadline value d, update-alarm sets the
deadline to d, sets armed to (d != UINT64_MAX), leaves the other fields and the
rest of the store unchanged, and always notifies the condition variable,
including when d is the sentinel and the call disarms. -/
theorem C4_updateAlarm (s : Store) (h d : Nat) (st : Int) (n : Notifier)
    (hk : lookupN s h = some n) :
    lookupN (HAL_UpdateNotifierAlarm s h d st).1 h =
      some { n with waitTime := d, running := d != UINT64_MAX } ∧
    (HAL_UpdateNotifierAlarm s h d st).2.1 = true ∧
    (HAL_UpdateNotifierAlarm s h d st).2.2 = st ∧
    (∀ h2, h2 ≠ h → lookupN (HAL_UpdateNotifierAlarm s h d st).1 h2 = lookupN s h2) ∧
    (HAL_UpdateNotifierAlarm s h d st).1.map (fun p => p.1) = s.map (fun p => p.1) := by
  refine ⟨?_, ?_, ?_, ?_, ?_⟩
  · simp only [HAL_UpdateNotifierAlarm, hk]
    rw [lookupN_modifyN_self, hk]
    rfl
  · simp only [HAL_UpdateNotifierAlarm, hk]
  · simp only [HAL_UpdateNotifierAlarm, hk]
  · intro h2 hne
    simp only [HAL_UpdateNotifierAlarm, hk]
    exact lookupN_modifyN_of_ne _ _ _ _ hne
  · simp only [HAL_UpdateNotifierAlarm, hk]
    exact keys_modifyN _ _ _

/-- Witness for C4 at the disarming sentinel deadline on a concrete store. -/
theorem C4_updateAlarm_witness :
    lookupN (HAL_UpdateNotifierAlarm demoStore 1 UINT64_MAX 5).1 1 =
      some { demoNotifier with waitTime := UINT64_MAX,
                               running := UINT64_MAX != UINT64_MAX } ∧
    (HAL_UpdateNotifierAlarm demoStore 1 UINT64_MAX 5).2.1 = true ∧
    (HAL_UpdateNotifierAlarm demoStore 1 UINT64_MAX 5).2.2 = 5 ∧
    lookupN (HAL_UpdateNotifierAlarm demoStore 1 UINT64_MAX 5).1 2 = lookupN demoStore 2 :=
  have T := C4_updateAlarm demoStore 1 UINT64_MAX 5 demoNotifier rfl
  ⟨T.1, T.2.1, T.2.2.1, T.2.2.2.1 2 (by decide)⟩

/-- C10: for every known handle, cancel-alarm sets armed to false, performs no
notification, and leaves everything else — the other fields, the other
entries, and the set of registered handles — exactly as before. -/
theorem C10_cancelAlarm (s : Store) (h : Nat) (st : Int) (n : Notifier)
    (hk : lookupN s h = some n) :
    lookupN (HAL_CancelNotifierAlarm s h st).1 h = some { n with running := false } ∧
    (HAL_CancelNotifierAlarm s h st).2.1 = false ∧
    (HAL_CancelNotifierAlarm s h st).2.2 = st ∧
    (∀ h2, h2 ≠ h → lookupN (HAL_CancelNotifierAlarm s h st).1 h2 = lookupN s h2) ∧
    (HAL_CancelNotifierAlarm s h st).1.map (fun p => p.1) = s.map (fun p => p.1) := by
  refine ⟨?_, ?_, ?_, ?_, ?_⟩
  · simp only [HAL_CancelNotifierAlarm, hk]
    rw [lookupN_modifyN_self, hk]
    rfl
  · simp only [HAL_CancelNotifierAlarm, hk]
  · simp only [HAL_CancelNotifierAlarm, hk]
  · intro h2 hne
    simp only [HAL_CancelNotifierAlarm, hk]
    exact lookupN_modifyN_of_ne _ _ _ _ hne
  · simp only [HAL_CancelNotifierAlarm, hk]
    exact keys_modifyN _ _ _

/-- Witness for C10 on a concrete store. -/
theorem C10_cancelAlarm_witness :
    lookupN (HAL_CancelNotifierAlarm demoStore 1 5).1 1 =
      some { demoNotifier with running := false } ∧
    (HAL_CancelNotifierAlarm demoStore 1 5).2.1 = false ∧
    (HAL_CancelNotifierAlarm demoStore 1 5).2.2 = 5 ∧
    lookupN (HAL_CancelNotifierAlarm demoStore 1 5).1 2 = lookupN demoStore 2 :=
  have T := C10_cancelAlarm demoStore 1 5 demoNotifier rfl
  ⟨T.1, T.2.1, T.2.2.1, T.2.2.2.1 2 (by decide)⟩

/-- C9: a call on an unknown handle is a silent no-op for every handle-taking
operation (store and status untouched; the wait returns the sentinel 0), while
create reports the allocation-failure status exactly when the registry is
exhausted, and otherwise leaves the status untouched. -/
theorem C9_error_surface (s : Store) (h : Nat) (nm : String) (w0 d : Nat)
    (trace : List WaitIter) (st : Int) (hu : lookupN s h = none) :
    HAL_SetNotifierName s h nm st = (s, st) ∧
    HAL_StopNotifier s h st = (s, false, st) ∧
    HAL_CleanNotifier s h st = (s, false, st) ∧
    HAL_UpdateNotifierAlarm s h d st = (s, false, st) ∧
    HAL_CancelNotifierAlarm s h st = (s, false, st) ∧
    HAL_WaitForNotifierAlarm s h trace st = (some 0, st) ∧
    waitEnter s h = s ∧
    HAL_HANDLE_ERROR ≠ 0 ∧
    (kMaxNotifierSlots ≤ s.length →
      HAL_InitializeNotifier s w0 st = (s, HAL_kInvalidHandle, HAL_HANDLE_ERROR)) ∧
    (s.length < kMaxNotifierSlots →
      HAL_InitializeNotifier s w0 st =
        (s ++ [(maxKey s + 1,
           { name := "", waitTime := w0, active := true, running := false, count := 0 })],
         maxKey s + 1, st)) := by
  refine ⟨?_, ?_, ?_, ?_, ?_, ?_, ?_, ?_, ?_, ?_⟩
  · simp [HAL_SetNotifierName, hu]
  · simp [HAL_StopNotifier, hu]
  · simp [HAL_CleanNotifier, hu]
  · simp [HAL_UpdateNotifierAlarm, hu]
  · simp [HAL_CancelNotifierAlarm, hu]
  · simp [HAL_WaitForNotifierAlarm, hu]
  · simp [waitEnter, hu]
  · decide
  · intro hx
    have hnlt : ¬s.length < kMaxNotifierSlots := not_lt.mpr hx
    simp [HAL_InitializeNotifier, allocateHandle, hnlt]
  · intro hlt
    simp [HAL_InitializeNotifier, allocateHandle, hlt]

/-- Witness for C9 on an exhausted registry and an unknown handle. -/
theorem C9_error_surface_witness :
    HAL_StopNotifier bigStore 5 3 = (bigStore, false, 3) ∧
    HAL_CancelNotifierAlarm bigStore 5 3 = (bigStore, false, 3) ∧
    HAL_WaitForNotifierAlarm bigStore 5 [] 3 = (some 0, 3) ∧
    HAL_InitializeNotifier bigStore 0 3 = (bigStore, HAL_kInvalidHandle, HAL_HANDLE_ERROR) := by
  have hu : lookupN bigStore 5 = none :=
    lookupN_replicate_ne kMaxNotifierSlots (0, demoNotifier) 5 (by decide)
  have T := C9_error_surface bigStore 5 ("x") 0 0 [] 3 hu
  have hlen : kMaxNotifierSlots ≤ bigStore.length := by
    simp [bigStore, List.length_replicate]
  exact ⟨T.2.1, T.2.2.2.2.1, T.2.2.2.2.2.1, T.2.2.2.2.2.2.2.2.1 hlen⟩

/-! Wait-loop characterization. -/

/-- The wait loop fires exactly when the iteration trace splits into a prefix
of live, non-due iterations followed by a live iteration whose sampled time
reached the deadline of an armed alarm; the outcome carries that sampled time
and the object with running cleared. -/
theorem waitLoop_fired_iff (trace : List WaitIter) (t : Nat) (nf : Notifier) :
    waitLoop trace = WaitOutcome.fired t nf ↔
      ∃ pre it rest, trace = pre ++ it :: rest ∧
        (∀ j ∈ pre, j.notifier.active = true ∧
          ¬(j.notifier.running = true ∧ j.notifier.waitTime ≤ j.curTime)) ∧
        it.notifier.active = true ∧ it.notifier.running = true ∧
        it.notifier.waitTime ≤ it.curTime ∧
        t = it.curTime ∧ nf = { it.notifier with running := false } := by
  induction trace with
  | nil =>
    constructor
    · intro hx
      simp [waitLoop] at hx
    · rintro ⟨pre, it, rest, habs, -⟩
      cases pre <;> simp at habs
  | cons a rest2 ih =>
    by_cases ha : a.notifier.active = true
    · by_cases hf : a.notifier.running = true ∧ a.notifier.waitTime ≤ a.curTime
      · simp only [waitLoop, if_pos ha, if_pos hf]
        constructor
        · intro hx
          cases hx
          exact ⟨[], a, rest2, rfl, by simp, ha, hf.1, hf.2, rfl, rfl⟩
        · rintro ⟨pre, it, r2, heq, hpre, hact, hrun, hle, ht, hnf⟩
          cases pre with
          | nil =>
            simp only [List.nil_append, List.cons.injEq] at heq
            rw [ht, hnf, heq.1]
          | cons b pre2 =>
            simp only [List.cons_append, List.cons.injEq] at heq
            have hb := hpre b (by simp)
            rw [heq.1] at hf
            exact absurd hf hb.2
      · simp only [waitLoop, if_pos ha, if_neg hf]
        rw [ih]
        constructor
        · rintro ⟨pre, it, r2, heq, hpre, hrest⟩
          refine ⟨a :: pre, it, r2, by rw [List.cons_append, heq], ?_, hrest⟩
          intro j hj
          rcases List.mem_cons.mp hj with hj | hj
          · exact ⟨hj ▸ ha, hj ▸ hf⟩
          · exact hpre j hj
        · rintro ⟨pre, it, r2, heq, hpre, hact, hrun, hle, ht, hnf⟩
          cases pre with
          | nil =>
            simp only [List.nil_append, List.cons.injEq] at heq
            rw [heq.1] at hf
            exact absurd ⟨hrun, hle⟩ hf
          | cons b pre2 =>
            simp only [List.cons_append, List.cons.injEq] at heq
            exact ⟨pre2, it, r2, heq.2, fun j hj => hpre j (by simp [hj]),
                   hact, hrun, hle, ht, hnf⟩
    · simp only [waitLoop, if_neg ha]
      constructor
      · intro hx
        cases hx
      · rintro ⟨pre, it, r2, heq, hpre, hact, -⟩
        cases pre with
        | nil =>
          simp only [List.nil_append, List.cons.injEq] at heq
          rw [heq.1] at ha
          exact absurd hact ha
        | cons b pre2 =>
          simp only [List.cons_append, List.cons.injEq] at heq
          have hb := hpre b (by simp)
          rw [heq.1] at ha
          exact absurd hb.1 ha

/-- Value returned for a loop outcome is 0 exactly when the loop stopped or
fired at sampled time 0. -/
theorem waitReturn_zero_iff (o : WaitOutcome) :
    waitReturn o = some 0 ↔
      o = WaitOutcome.stopped ∨ ∃ nf, o = WaitOutcome.fired 0 nf := by
  cases o <;> simp [waitReturn]

/-- A live iteration that samples time 0 against deadline 0: the loop fires
and the wait call returns the 0 sentinel. -/
def zeroIter : WaitIter :=
  { notifier := { name := "", waitTime := 0, active := true, running := true, count := 1 },
    paused := false, curTime := 0 }

/-- Store holding the notifier of zeroIter under handle 1. -/
def zeroStore : Store := [(1, zeroIter.notifier)]

/-- C1 counterexample: on a known, alive notifier a loop iteration had armed
true and sampled time at the deadline, yet the returned value is 0 — not a
non-zero value — so the claimed biconditional with a non-zero return fails. -/
theorem C1_counterexample :
    lookupN zeroStore 1 = some zeroIter.notifier ∧
    zeroIter.notifier.active = true ∧
    zeroIter.notifier.running = true ∧
    zeroIter.notifier.waitTime ≤ zeroIter.curTime ∧
    (HAL_WaitForNotifierAlarm zeroStore 1 [zeroIter] 0).1 = some 0 := by
  decide

/-- C1 amended: on a known notifier the call fires — returning the sampled
current time, which is zero exactly when that sample is zero — if and only if
some executed loop iteration had armed true and the sampled time at or past
the deadline; the fired outcome returns that very sample, clears armed, and
the sample is at least the deadline in effect at the return. -/
theorem C1_fire_characterization (s : Store) (h : Nat) (n0 : Notifier)
    (trace : List WaitIter) (st : Int) (hk : lookupN s h = some n0) :
    (∀ t nf, waitLoop trace = WaitOutcome.fired t nf →
      (HAL_WaitForNotifierAlarm s h trace st).1 = some t ∧
      nf.running = false ∧ nf.waitTime ≤ t) ∧
    (∀ t nf, waitLoop trace = WaitOutcome.fired t nf ↔
      ∃ pre it rest, trace = pre ++ it :: rest ∧
        (∀ j ∈ pre, j.notifier.active = true ∧
          ¬(j.notifier.running = true ∧ j.notifier.waitTime ≤ j.curTime)) ∧
        it.notifier.active = true ∧ it.notifier.running = true ∧
        it.notifier.waitTime ≤ it.curTime ∧
        t = it.curTime ∧ nf = { it.notifier with running := false }) := by
  constructor
  · intro t nf hx
    refine ⟨?_, ?_, ?_⟩
    · simp [HAL_WaitForNotifierAlarm, hk, hx, waitReturn]
    · obtain ⟨pre, it, rest, -, -, -, -, -, -, hnf⟩ := (waitLoop_fired_iff trace t nf).mp hx
      rw [hnf]
    · obtain ⟨pre, it, rest, -, -, -, -, hle, ht, hnf⟩ :=
        (waitLoop_fired_iff trace t nf).mp hx
      rw [hnf, ht]
      exact hle
  · intro t nf
    exact waitLoop_fired_iff trace t nf

/-- A concrete firing iteration for the C1 witness. -/
def demoIter : WaitIter := { notifier := demoNotifier, paused := false, curTime := 50 }

/-- Witness for C1 on a concrete firing trace. -/
theorem C1_fire_characterization_witness :
    (HAL_WaitForNotifierAlarm demoStore 1 [demoIter] 0).1 = some 50 ∧
    waitLoop [demoIter] = WaitOutcome.fired 50 { demoNotifier with running := false } := by
  have hfired : waitLoop [demoIter] =
      WaitOutcome.fired 50 { demoNotifier with running := false } := by decide
  have T := C1_fire_characterization demoStore 1 demoNotifier [demoIter] 0 rfl
  exact ⟨(T.1 50 { demoNotifier with running := false } hfired).1, hfired⟩

/-- C5 counterexample: the wait call returns 0 with a known handle and a loop
that did not exit through the alive flag — it fired at sampled time 0 — so the
claimed "exactly two cases" for a 0 return fails. -/
theorem C5_counterexample :
    HAL_WaitForNotifierAlarm zeroStore 1 [zeroIter] 7 = (some 0, 7) ∧
    lookupN zeroStore 1 ≠ none ∧
    waitLoop [zeroIter] ≠ WaitOutcome.stopped := by
  decide

/-- C5 amended: the wait call returns the sentinel 0 in exactly three cases —
unknown handle (with the store untouched), loop exit because alive became
false, or a fire whose sampled time is 0 — and the status output is never
written. -/
theorem C5_zero_sentinel (s : Store) (h : Nat) (trace : List WaitIter) (st : Int) :
    ((HAL_WaitForNotifierAlarm s h trace st).1 = some 0 ↔
      lookupN s h = none ∨ waitLoop trace = WaitOutcome.stopped ∨
        ∃ nf, waitLoop trace = WaitOutcome.fired 0 nf) ∧
    (HAL_WaitForNotifierAlarm s h trace st).2 = st ∧
    (lookupN s h = none →
      waitEnter s h = s ∧ HAL_WaitForNotifierAlarm s h trace st = (some 0, st)) := by
  cases hlk : lookupN s h with
  | none =>
    refine ⟨?_, ?_, ?_⟩
    · simp [HAL_WaitForNotifierAlarm, hlk]
    · simp [HAL_WaitForNotifierAlarm, hlk]
    · intro hn
      exact ⟨by simp [waitEnter, hlk], by simp [HAL_WaitForNotifierAlarm, hlk]⟩
  | some n =>
    refine ⟨?_, ?_, ?_⟩
    · simp only [HAL_WaitForNotifierAlarm, hlk]
      rw [waitReturn_zero_iff]
      simp
    · simp [HAL_WaitForNotifierAlarm, hlk]
    · intro hn
      cases hn

/-- Witness for C5 on a concrete unknown handle. -/
theorem C5_zero_sentinel_witness :
    (HAL_WaitForNotifierAlarm demoStore 99 [] 3).1 = some 0 ∧
    (HAL_WaitForNotifierAlarm demoStore 99 [] 3).2 = 3 ∧
    waitEnter demoStore 99 = demoStore := by
  have T := C5_zero_sentinel demoStore 99 [] 3
  have hu : lookupN demoStore 99 = none := by decide
  exact ⟨(T.1).mpr (Or.inl hu), T.2.1, (T.2.2 hu).1⟩

/-- An iteration executed while the process-wide paused flag is set, on a live
armed notifier whose deadline has passed. -/
def pausedDueIter : WaitIter :=
  { notifier := { name := "", waitTime := 3, active := true, running := true, count := 1 },
    paused := true, curTime := 5 }

/-- C3 counterexample: while paused, a loop iteration on an armed alarm whose
deadline has passed does fire — the fire check of the wait loop ignores the
paused flag — contradicting the claim that such an alarm cannot fire until
resume clears the flag. -/
theorem C3_counterexample :
    pausedDueIter.paused = true ∧
    pausedDueIter.notifier.active = true ∧
    pausedDueIter.notifier.running = true ∧
    pausedDueIter.notifier.waitTime ≤ pausedDueIter.curTime ∧
    waitLoop [pausedDueIter] =
      WaitOutcome.fired 5 { pausedDueIter.notifier with running := false } ∧
    waitReturn (waitLoop [pausedDueIter]) = some 5 := by
  decide

/-- C3 amended: pause only sets the process-wide flag, leaving every object —
in particular an armed deadline — untouched; while the flag is set, every
iteration that reaches the sleep computation selects the long fixed
1000-second sleep regardless of armed state or deadline; the fire check
itself ignores the flag, so an iteration finding an armed, due alarm fires
(in particular once resumed and due); and resume clears the flag, leaving the
store untouched, and notifies every object. -/
theorem C3_pause_freeze (g : GlobalState) (it : WaitIter) (hp : it.paused = true) :
    (PauseNotifiers g).store = g.store ∧
    (PauseNotifiers g).paused = true ∧
    sleepMicros it.notifier it.paused it.curTime = 1000 * 1000000 ∧
    (it.notifier.active = true → it.notifier.running = true →
      it.notifier.waitTime ≤ it.curTime →
      waitLoop [it] = WaitOutcome.fired it.curTime { it.notifier with running := false }) ∧
    (ResumeNotifiers g).1.store = g.store ∧
    (ResumeNotifiers g).1.paused = false ∧
    (ResumeNotifiers g).2 = g.store.map (fun p => p.1) := by
  refine ⟨rfl, rfl, ?_, ?_, rfl, rfl, rfl⟩
  · simp [sleepMicros, hp]
  · intro ha hr hle
    simp [waitLoop, ha, hr, hle]

/-- Witness for C3 on a concrete paused, due iteration. -/
theorem C3_pause_freeze_witness :
    (PauseNotifiers { store := demoStore, paused := false }).store = demoStore ∧
    sleepMicros pausedDueIter.notifier pausedDueIter.paused pausedDueIter.curTime =
      1000 * 1000000 ∧
    waitLoop [pausedDueIter] =
      WaitOutcome.fired 5 { pausedDueIter.notifier with running := false } ∧
    (ResumeNotifiers { store := demoStore, paused := true }).1.store = demoStore := by
  have T := C3_pause_freeze { store := demoStore, paused := false } pausedDueIter rfl
  have T2 := C3_pause_freeze { store := demoStore, paused := true } pausedDueIter rfl
  exact ⟨T.1, T.2.2.1, T.2.2.2.1 rfl rfl (by decide), T2.2.2.2.2.1⟩

/-! Next-timeout fold lemmas. -/

theorem nextTimeoutAux_le_acc (s : Store) : ∀ acc, nextTimeoutAux s acc ≤ acc := by
  induction s with
  | nil => intro acc; exact le_refl _
  | cons p rest ih =>
    intro acc
    simp only [nextTimeoutAux]
    by_cases hc : p.2.active = true ∧ p.2.running = true ∧ p.2.waitTime < acc
    · rw [if_pos hc]
      exact le_trans (ih _) (le_of_lt hc.2.2)
    · rw [if_neg hc]
      exact ih _

theorem nextTimeoutAux_le_mem (p : Nat × Notifier) (s : Store) (hp : p ∈ s)
    (ha : p.2.active = true) (hr : p.2.running = true) :
    ∀ acc, nextTimeoutAux s acc ≤ p.2.waitTime := by
  induction hp with
  | head rest =>
    intro acc
    simp only [nextTimeoutAux]
    by_cases hc : p.2.active = true ∧ p.2.running = true ∧ p.2.waitTime < acc
    · rw [if_pos hc]
      exact nextTimeoutAux_le_acc rest _
    · rw [if_neg hc]
      have hnl : ¬p.2.waitTime < acc := fun hlt => hc ⟨ha, hr, hlt⟩
      exact le_trans (nextTimeoutAux_le_acc rest acc) (not_lt.mp hnl)
  | tail q hmem ih =>
    intro acc
    simp only [nextTimeoutAux]
    exact ih _

theorem nextTimeoutAux_eq_or_mem (s : Store) : ∀ acc, nextTimeoutAux s acc = acc ∨
    ∃ p ∈ s, p.2.active = true ∧ p.2.running = true ∧
      nextTimeoutAux s acc = p.2.waitTime := by
  induction s with
  | nil => intro acc; exact Or.inl rfl
  | cons q rest ih =>
    intro acc
    simp only [nextTimeoutAux]
    by_cases hc : q.2.active = true ∧ q.2.running = true ∧ q.2.waitTime < acc
    · rw [if_pos hc]
      rcases ih q.2.waitTime with h1 | ⟨p, hmem, hpa, hpr, heq⟩
      · exact Or.inr ⟨q, by simp, hc.1, hc.2.1, h1⟩
      · exact Or.inr ⟨p, by simp [hmem], hpa, hpr, heq⟩
    · rw [if_neg hc]
      rcases ih acc with h1 | ⟨p, hmem, hpa, hpr, heq⟩
      · exact Or.inl h1
      · exact Or.inr ⟨p, by simp [hmem], hpa, hpr, heq⟩

theorem nextTimeoutAux_of_none (s : Store)
    (hnone : ∀ p ∈ s, ¬(p.2.active = true ∧ p.2.running = true)) :
    ∀ acc, nextTimeoutAux s acc = acc := by
  induction s with
  | nil => intro acc; rfl
  | cons q rest ih =>
    intro acc
    simp only [nextTimeoutAux]
    have hq := hnone q (by simp)
    have hc : ¬(q.2.active = true ∧ q.2.running = true ∧ q.2.waitTime < acc) := by
      rintro ⟨h1, h2, -⟩
      exact hq ⟨h1, h2⟩
    rw [if_neg hc]
    exact ih (fun p hp => hnone p (by simp [hp])) acc

/-- C7: next-timeout is the minimum deadline over the objects that are both
alive and armed, and the sentinel UINT64_MAX when no such object exists: it is
the sentinel on an armed-free store, bounds every live armed deadline from
below, and is itself the sentinel or one of the live armed deadlines. -/
theorem C7_nextTimeout (s : Store) :
    ((∀ p ∈ s, ¬(p.2.active = true ∧ p.2.running = true)) →
      HALSIM_GetNextNotifierTimeout s = UINT64_MAX) ∧
    (∀ p ∈ s, p.2.active = true → p.2.running = true →
      HALSIM_GetNextNotifierTimeout s ≤ p.2.waitTime) ∧
    (HALSIM_GetNextNotifierTimeout s = UINT64_MAX ∨
      ∃ p ∈ s, p.2.active = true ∧ p.2.running = true ∧
        HALSIM_GetNextNotifierTimeout s = p.2.waitTime) := by
  refine ⟨?_, ?_, ?_⟩
  · intro hnone
    exact nextTimeoutAux_of_none s hnone UINT64_MAX
  · intro p hp ha hr
    exact nextTimeoutAux_le_mem p s hp ha hr UINT64_MAX
  · exact nextTimeoutAux_eq_or_mem s UINT64_MAX

/-- Witness for C7 on a concrete store with one live armed alarm, and on the
empty store for the sentinel case. -/
theorem C7_nextTimeout_witness :
    HALSIM_GetNextNotifierTimeout demoStore ≤ 40 ∧
    (HALSIM_GetNextNotifierTimeout demoStore = UINT64_MAX ∨
      ∃ p ∈ demoStore, p.2.active = true ∧ p.2.running = true ∧
        HALSIM_GetNextNotifierTimeout demoStore = p.2.waitTime) ∧
    HALSIM_GetNextNotifierTimeout ([] : Store) = UINT64_MAX := by
  have T := C7_nextTimeout demoStore
  have TE := C7_nextTimeout ([] : Store)
  refine ⟨?_, T.2.2, TE.1 (by simp)⟩
  have h40 := T.2.1 (1, demoNotifier) (by simp [demoStore]) rfl rfl
  simpa [demoNotifier] using h40

/-! Snapshot lemmas. -/

theorem numNotifiers_eq_live (s : Store) :
    HALSIM_GetNumNotifiers s = (liveEntries s).length := by
  induction s with
  | nil => rfl
  | cons p rest ih =>
    by_cases ha : p.2.active = true
    · simp only [HALSIM_GetNumNotifiers, liveEntries, if_pos ha, ih, List.length_cons]
      omega
    · simp [HALSIM_GetNumNotifiers, liveEntries, ha, ih]

theorem notifierInfoAux_spec (size : Nat) (s : Store) :
    ∀ num, (notifierInfoAux size s num).1 =
        ((liveEntries s).take (size - num)).map mkInfo ∧
      (notifierInfoAux size s num).2 = num + (liveEntries s).length := by
  induction s with
  | nil => intro num; simp [notifierInfoAux, liveEntries]
  | cons p rest ih =>
    intro num
    by_cases ha : p.2.active = true
    · by_cases hn : num < size
      · simp only [notifierInfoAux, liveEntries, if_pos ha, if_pos hn]
        constructor
        · have hsz : size - num = (size - (num + 1)) + 1 := by omega
          rw [(ih (num + 1)).1, hsz]
          simp
        · rw [(ih (num + 1)).2]
          simp only [List.length_cons]
          omega
      · simp only [notifierInfoAux, liveEntries, if_pos ha, if_neg hn]
        constructor
        · have hsz : size - num = 0 := by omega
          have hsz2 : size - (num + 1) = 0 := by omega
          rw [(ih (num + 1)).1, hsz, hsz2]
          simp
        · rw [(ih (num + 1)).2]
          simp only [List.length_cons]
          omega
    · simp only [notifierInfoAux, liveEntries, if_neg ha]
      exact ih num

/-- C8: the snapshot writes exactly the first min(liveCount, capacity) live
entries in enumeration order — never an index at or past the capacity — each
entry carrying the handle, deadline, armed flag, and the stored name or the
generated placeholder when empty; the returned count, like live-count, is the
true number of live objects even when it exceeds the capacity. -/
theorem C8_snapshot (s : Store) (size : Nat) :
    (HALSIM_GetNotifierInfo s size).1 = ((liveEntries s).take size).map mkInfo ∧
    (HALSIM_GetNotifierInfo s size).1.length = min (liveEntries s).length size ∧
    (HALSIM_GetNotifierInfo s size).2 = (liveEntries s).length ∧
    HALSIM_GetNumNotifiers s = (liveEntries s).length ∧
    (∀ p : Nat × Notifier, (mkInfo p).handle = p.1 ∧ (mkInfo p).timeout = p.2.waitTime ∧
      (mkInfo p).running = p.2.running ∧
      (mkInfo p).name =
        (if p.2.name = "" then "Notifier" ++ toString (getHandleIndex p.1) else p.2.name)) := by
  have hs := notifierInfoAux_spec size s 0
  refine ⟨?_, ?_, ?_, numNotifiers_eq_live s, ?_⟩
  · rw [HALSIM_GetNotifierInfo, hs.1, Nat.sub_zero]
  · rw [HALSIM_GetNotifierInfo, hs.1, Nat.sub_zero]
    rw [List.length_map, List.length_take]
    exact min_comm _ _
  · rw [HALSIM_GetNotifierInfo, hs.2]
    simp
  · intro p
    exact ⟨rfl, rfl, rfl, rfl⟩

/-- Witness for C8 with a capacity smaller than the live count. -/
theorem C8_snapshot_witness :
    (HALSIM_GetNotifierInfo demoStore 0).1 = [] ∧
    (HALSIM_GetNotifierInfo demoStore 0).2 = 1 ∧
    HALSIM_GetNumNotifiers demoStore = 1 := by
  have T := C8_snapshot demoStore 0
  refine ⟨?_, ?_, ?_⟩
  · rw [T.1]
    simp
  · rw [T.2.2.1]
    decide
  · rw [T.2.2.2.1]
    decide

/-! Lifecycle invariant machinery. -/

/-- Symmetric extraction from an equality of some-wrapped notifiers. -/
theorem some_eq_flip {a b : Notifier} (h : some a = some b) : b = a :=
  (Option.some_inj.mp h).symm

/-- After modifyN, the object found under a handle is the old one or the old
one transformed. -/
theorem lookupN_after_modifyN (f : Notifier → Notifier) (hop h : Nat) (s : Store)
    (n n2 : Notifier) (hn : lookupN s h = some n)
    (h2 : lookupN (modifyN f hop s) h = some n2) :
    n2 = n ∨ (hop = h ∧ n2 = f n) := by
  by_cases he : h = hop
  · subst he
    rw [lookupN_modifyN_self, hn] at h2
    exact Or.inr ⟨rfl, some_eq_flip h2⟩
  · rw [lookupN_modifyN_of_ne f hop h s he, hn] at h2
    exact Or.inl (some_eq_flip h2)

/-- The invariant conclusions when the object is unchanged and the operation is
not a wait entry. -/
theorem invariant_of_stable (n n2 : Notifier) (op : Op) (h : Nat) (heq : n2 = n)
    (hne : ∀ h2, op ≠ Op.waitEnter h2) :
    (n.active = false → n2.active = false) ∧ n.count ≤ n2.count ∧
    (op = Op.waitEnter h → n2.count = n.count + 1) ∧
    (∀ h2, op = Op.waitEnter h2 → h2 ≠ h → n2.count = n.count) ∧
    ((∀ h2, op ≠ Op.waitEnter h2) → n2.count = n.count) := by
  subst heq
  exact ⟨id, le_refl _, fun hx => absurd hx (hne h), fun _ _ _ => rfl, fun _ => rfl⟩

/-- The invariant conclusions for an operation that rewrites the object with a
transform that preserves the count and never revives the object. -/
theorem invariant_of_modify (f : Notifier → Notifier) (op : Op) (h : Nat) (n n2 : Notifier)
    (heq : n2 = n ∨ n2 = f n)
    (hcount : (f n).count = n.count)
    (hactive : n.active = false → (f n).active = false)
    (hne : ∀ h2, op ≠ Op.waitEnter h2) :
    (n.active = false → n2.active = false) ∧ n.count ≤ n2.count ∧
    (op = Op.waitEnter h → n2.count = n.count + 1) ∧
    (∀ h2, op = Op.waitEnter h2 → h2 ≠ h → n2.count = n.count) ∧
    ((∀ h2, op ≠ Op.waitEnter h2) → n2.count = n.count) := by
  rcases heq with heq | heq
  · exact invariant_of_stable n n2 op h heq hne
  · subst heq
    exact ⟨hactive, le_of_eq hcount.symm, fun hx => absurd hx (hne h),
           fun _ _ _ => hcount, fun _ => hcount⟩

/-- C6: across every operation, alive only ever transitions from true to false
and is never set back; the wake count never decreases and is incremented,
exactly by one, only by a wait call that finds its handle; and create
establishes the base state alive, not armed, wake count zero. -/
theorem C6_lifecycle :
    (∀ s op h n n2, lookupN s h = some n → lookupN (applyOp s op) h = some n2 →
      (n.active = false → n2.active = false) ∧ n.count ≤ n2.count ∧
      (op = Op.waitEnter h → n2.count = n.count + 1) ∧
      (∀ h2, op = Op.waitEnter h2 → h2 ≠ h → n2.count = n.count) ∧
      ((∀ h2, op ≠ Op.waitEnter h2) → n2.count = n.count)) ∧
    (∀ s w0 st, (HAL_InitializeNotifier s w0 st).2.1 ≠ HAL_kInvalidHandle →
      ∃ m, lookupN (HAL_InitializeNotifier s w0 st).1 (HAL_InitializeNotifier s w0 st).2.1 =
          some m ∧ m.active = true ∧ m.running = false ∧ m.count = 0) := by
  constructor
  · intro s op h n n2 hn h2
    cases op with
    | create w0 =>
      have hne : ∀ h3, Op.create w0 ≠ Op.waitEnter h3 := fun h3 hx => by cases hx
      refine invariant_of_stable n n2 _ h ?_ hne
      by_cases hlen : s.length < kMaxNotifierSlots
      · simp only [applyOp, HAL_InitializeNotifier, allocateHandle, if_pos hlen] at h2
        rw [lookupN_append, hn] at h2
        exact some_eq_flip h2
      · simp only [applyOp, HAL_InitializeNotifier, allocateHandle, if_neg hlen] at h2
        rw [hn] at h2
        exact some_eq_flip h2
    | setName hop nm =>
      have hne : ∀ h3, Op.setName hop nm ≠ Op.waitEnter h3 := fun h3 hx => by cases hx
      simp only [applyOp, HAL_SetNotifierName] at h2
      cases hl : lookupN s hop with
      | none =>
        rw [hl, hn] at h2
        exact invariant_of_stable n n2 _ h (some_eq_flip h2) hne
      | some q =>
        rw [hl] at h2
        rcases lookupN_after_modifyN _ hop h s n n2 hn h2 with he | ⟨-, he⟩
        · exact invariant_of_stable n n2 _ h he hne
        · exact invariant_of_modify (fun m => { m with name := nm }) _ h n n2
            (Or.inr he) rfl (fun hx => hx) hne
    | stop hop =>
      have hne : ∀ h3, Op.stop hop ≠ Op.waitEnter h3 := fun h3 hx => by cases hx
      simp only [applyOp, HAL_StopNotifier] at h2
      cases hl : lookupN s hop with
      | none =>
        rw [hl, hn] at h2
        exact invariant_of_stable n n2 _ h (some_eq_flip h2) hne
      | some q =>
        rw [hl] at h2
        rcases lookupN_after_modifyN _ hop h s n n2 hn h2 with he | ⟨-, he⟩
        · exact invariant_of_stable n n2 _ h he hne
        · exact invariant_of_modify (fun m => { m with active := false, running := false })
            _ h n n2 (Or.inr he) rfl (fun _ => rfl) hne
    | clean hop =>
      have hne : ∀ h3, Op.clean hop ≠ Op.waitEnter h3 := fun h3 hx => by cases hx
      simp only [applyOp, HAL_CleanNotifier] at h2
      cases hl : lookupN s hop with
      | none =>
        rw [hl, hn] at h2
        exact invariant_of_stable n n2 _ h (some_eq_flip h2) hne
      | some q =>
        rw [hl] at h2
        by_cases he : h = hop
        · subst he
          rw [lookupN_removeN_self] at h2
          cases h2
        · rw [lookupN_removeN_of_ne hop h s he, hn] at h2
          exact invariant_of_stable n n2 _ h (some_eq_flip h2) hne
    | update hop tt =>
      have hne : ∀ h3, Op.update hop tt ≠ Op.waitEnter h3 := fun h3 hx => by cases hx
      simp only [applyOp, HAL_UpdateNotifierAlarm] at h2
      cases hl : lookupN s hop with
      | none =>
        rw [hl, hn] at h2
        exact invariant_of_stable n n2 _ h (some_eq_flip h2) hne
      | some q =>
        rw [hl] at h2
        rcases lookupN_after_modifyN _ hop h s n n2 hn h2 with he | ⟨-, he⟩
        · exact invariant_of_stable n n2 _ h he hne
        · exact invariant_of_modify
            (fun m => { m with waitTime := tt, running := tt != UINT64_MAX })
            _ h n n2 (Or.inr he) rfl (fun hx => hx) hne
    | cancel hop =>
      have hne : ∀ h3, Op.cancel hop ≠ Op.waitEnter h3 := fun h3 hx => by cases hx
      simp only [applyOp, HAL_CancelNotifierAlarm] at h2
      cases hl : lookupN s hop with
      | none =>
        rw [hl, hn] at h2
        exact invariant_of_stable n n2 _ h (some_eq_flip h2) hne
      | some q =>
        rw [hl] at h2
        rcases lookupN_after_modifyN _ hop h s n n2 hn h2 with he | ⟨-, he⟩
        · exact invariant_of_stable n n2 _ h he hne
        · exact invariant_of_modify (fun m => { m with running := false }) _ h n n2
            (Or.inr he) rfl (fun hx => hx) hne
    | waitFire hop =>
      have hne : ∀ h3, Op.waitFire hop ≠ Op.waitEnter h3 := fun h3 hx => by cases hx
      simp only [applyOp, waitFireEffect] at h2
      cases hl : lookupN s hop with
      | none =>
        rw [hl, hn] at h2
        exact invariant_of_stable n n2 _ h (some_eq_flip h2) hne
      | some q =>
        rw [hl] at h2
        rcases lookupN_after_modifyN _ hop h s n n2 hn h2 with he | ⟨-, he⟩
        · exact invariant_of_stable n n2 _ h he hne
        · exact invariant_of_modify (fun m => { m with running := false }) _ h n n2
            (Or.inr he) rfl (fun hx => hx) hne
    | waitEnter hop =>
      simp only [applyOp, waitEnter] at h2
      cases hl : lookupN s hop with
      | none =>
        rw [hl, hn] at h2
        have heq : n2 = n := some_eq_flip h2
        subst heq
        refine ⟨id, le_refl _, ?_, fun _ _ _ => rfl, fun _ => rfl⟩
        intro hx
        cases hx
        rw [hn] at hl
        cases hl
      | some q =>
        rw [hl] at h2
        rcases lookupN_after_modifyN _ hop h s n n2 hn h2 with he | ⟨hee, he⟩
        · refine ⟨?_, ?_, ?_, ?_, ?_⟩
          · intro hx
            rw [he]
            exact hx
          · rw [he]
          · intro hx
            cases hx
            rw [lookupN_modifyN_self, hn] at h2
            simp only [Option.map_some'] at h2
            have h3 : n2 = { n with count := n.count + 1 } := Option.some_inj.mp h2.symm
            exact congrArg Notifier.count h3
          · intro h3 hx hne2
            rw [he]
          · intro hall
            exact absurd rfl (hall hop)
        · subst hee
          subst he
          refine ⟨id, Nat.le_succ _, fun _ => rfl, ?_, ?_⟩
          · intro h3 hx hne2
            cases hx
            exact absurd rfl hne2
          · intro hall
            exact absurd rfl (hall hop)
  · intro s w0 st hval
    by_cases hlen : s.length < kMaxNotifierSlots
    · simp only [HAL_InitializeNotifier, allocateHandle, if_pos hlen]
      refine ⟨{ name := "", waitTime := w0, active := true, running := false, count := 0 },
              ?_, rfl, rfl, rfl⟩
      rw [lookupN_append, lookupN_fresh_maxKey]
      simp [lookupN]
    · exfalso
      apply hval
      simp [HAL_InitializeNotifier, allocateHandle, hlen]

/-- Witness for C6: a wait entry on a concrete store advances the count by
exactly one, and a concrete create yields the base state. -/
theorem C6_lifecycle_witness :
    ({ demoNotifier with count := 3 } : Notifier).count = demoNotifier.count + 1 ∧
    (∃ m, lookupN (HAL_InitializeNotifier demoStore 9 0).1
        (HAL_InitializeNotifier demoStore 9 0).2.1 = some m ∧
      m.active = true ∧ m.running = false ∧ m.count = 0) := by
  have T := C6_lifecycle
  have h1 := T.1 demoStore (Op.waitEnter 1) 1 demoNotifier { demoNotifier with count := 3 }
    rfl (by decide)
  exact ⟨h1.2.2.1 rfl, T.2 demoStore 9 0 (by decide)⟩

/-! Barrier lemmas. -/

/-- The boolean due test agrees with the armed-and-never-waited-or-expired
predicate. -/
theorem dueAtStart_eq_true (t : Nat) (n : Notifier) :
    dueAtStart t n = true ↔ n.running = true ∧ (n.count = 0 ∨ n.waitTime ≤ t) := by
  simp [dueAtStart]

/-- Membership in the barrier snapshot: exactly the running objects that were
never waited on or whose deadline has passed, paired with their counts. -/
theorem mem_wakeupSnapshot (t : Nat) (s : Store) (h c : Nat) :
    (h, c) ∈ wakeupSnapshot t s ↔
      ∃ n, (h, n) ∈ s ∧ n.running = true ∧ (n.count = 0 ∨ n.waitTime ≤ t) ∧ c = n.count := by
  induction s with
  | nil => simp [wakeupSnapshot]
  | cons p rest ih =>
    by_cases hd : dueAtStart t p.2 = true
    · simp only [wakeupSnapshot, if_pos hd, List.mem_cons]
      constructor
      · rintro (heq | hmem)
        · obtain ⟨h1, h2⟩ := Prod.mk.injEq .. ▸ heq
          refine ⟨p.2, Or.inl ?_, ?_, ?_, h2⟩
          · rw [h1]
          · exact ((dueAtStart_eq_true t p.2).mp hd).1
          · exact ((dueAtStart_eq_true t p.2).mp hd).2
        · obtain ⟨n, hmem2, hx⟩ := ih.mp hmem
          exact ⟨n, Or.inr hmem2, hx⟩
      · rintro ⟨n, hmem, hrun, hdue, hc⟩
        rcases hmem with heq | hmem
        · obtain ⟨h1, h2⟩ := Prod.mk.injEq .. ▸ heq
          left
          rw [hc, h1, h2]
        · exact Or.inr (ih.mpr ⟨n, hmem, hrun, hdue, hc⟩)
    · simp only [wakeupSnapshot, if_neg hd]
      rw [ih]
      constructor
      · rintro ⟨n, hmem, hx⟩
        exact ⟨n, List.mem_cons_of_mem _ hmem, hx⟩
      · rintro ⟨n, hmem, hrun, hdue, hc⟩
        rcases List.mem_cons.mp hmem with heq | hmem
        · exfalso
          apply hd
          obtain ⟨h1, h2⟩ := Prod.mk.injEq .. ▸ heq
          rw [← h2] at hd ⊢
          exact (dueAtStart_eq_true t n).mpr ⟨hrun, hdue⟩
        · exact ⟨n, hmem, hrun, hdue, hc⟩

/-- A pending entry survives a retry round exactly when its object is still
registered, still active, and still at the snapshotted count. -/
theorem mem_barrierStep (s : Store) (w : List (Nat × Nat)) (e : Nat × Nat) (he : e ∈ w) :
    e ∈ barrierStep s w ↔
      ∃ n, lookupN s e.1 = some n ∧ n.active = true ∧ n.count = e.2 := by
  rw [barrierStep, List.mem_filter]
  cases hl : lookupN s e.1 with
  | none =>
    simp only [shouldKeep, hl, he, true_and]
    simp
  | some n =>
    simp only [shouldKeep, hl, he, true_and]
    simp

/-- A successful barrier run stops within the observed rounds, with the
iterated pending set empty. -/
theorem barrierRun_some_imp (rounds : List Store) (w : List (Nat × Nat)) (k : Nat)
    (hr : barrierRun rounds w = some k) :
    k < rounds.length ∧ iterSteps (rounds.take (k + 1)) w = [] := by
  induction rounds generalizing w k with
  | nil => cases hr
  | cons s rest ih =>
    simp only [barrierRun] at hr
    by_cases hw : (barrierStep s w).isEmpty = true
    · rw [if_pos hw] at hr
      cases hr
      refine ⟨by simp, ?_⟩
      simp only [List.take_succ_cons, List.take_zero, iterSteps]
      exact List.isEmpty_iff.mp hw
    · rw [if_neg hw] at hr
      cases hrec : barrierRun rest (barrierStep s w) with
      | none =>
        rw [hrec] at hr
        cases hr
      | some k2 =>
        rw [hrec] at hr
        cases hr
        obtain ⟨hlt, hit⟩ := ih (barrierStep s w) k2 hrec
        refine ⟨by simpa using Nat.succ_lt_succ hlt, ?_⟩
        simpa [List.take_succ_cons, iterSteps] using hit

/-- When the iterated pending set is empty, every original entry was dropped
at some observed round, i.e. failed the keep test against that round's store. -/
theorem iterSteps_nil_dropped (rs : List Store) (w : List (Nat × Nat))
    (hit : iterSteps rs w = []) :
    ∀ e ∈ w, ∃ sj ∈ rs, shouldKeep sj e = false := by
  induction rs generalizing w with
  | nil =>
    intro e he
    rw [iterSteps] at hit
    subst hit
    cases he
  | cons s rest ih =>
    intro e he
    by_cases hk : shouldKeep s e = true
    · have he2 : e ∈ barrierStep s w := List.mem_filter.mpr ⟨he, hk⟩
      obtain ⟨sj, hsj, hfalse⟩ :=
        ih (barrierStep s w) (by simpa [iterSteps] using hit) e he2
      exact ⟨sj, List.mem_cons_of_mem _ hsj, hfalse⟩
    · refine ⟨s, List.mem_cons_self _ _, ?_⟩
      revert hk
      cases shouldKeep s e <;> simp

/-- C2: the barrier snapshot holds exactly the objects with armed and
(wakeCount zero or current time at/past the deadline) at the start; a pending
entry survives a round exactly when its object is still present, active, and
at the snapshotted wake count (so it is dropped only when gone, inactive, or
advanced); and a returning run has emptied the pending set, every snapshot
entry having failed the keep test at some observed round. -/
theorem C2_barrier_correct (s0 : Store) (t : Nat) (rounds : List Store) (k : Nat)
    (hret : WakeupWaitNotifiers s0 t rounds = some k) :
    (∀ h c, (h, c) ∈ wakeupSnapshot t s0 ↔
      ∃ n, (h, n) ∈ s0 ∧ n.running = true ∧ (n.count = 0 ∨ n.waitTime ≤ t) ∧ c = n.count) ∧
    (∀ s w e, e ∈ w →
      (e ∈ barrierStep s w ↔
        ∃ n, lookupN s e.1 = some n ∧ n.active = true ∧ n.count = e.2)) ∧
    k < rounds.length ∧
    iterSteps (rounds.take (k + 1)) (wakeupSnapshot t s0) = [] ∧
    (∀ e ∈ wakeupSnapshot t s0, ∃ sj ∈ rounds.take (k + 1), shouldKeep sj e = false) := by
  obtain ⟨hk, hit⟩ := barrierRun_some_imp rounds (wakeupSnapshot t s0) k hret
  exact ⟨fun h c => mem_wakeupSnapshot t s0 h c,
         fun s w e he => mem_barrierStep s w e he,
         hk, hit,
         fun e he => iterSteps_nil_dropped _ _ hit e he⟩

/-- Round observation for the C2 witness: the due alarm has advanced its wake
count, so the barrier is satisfied on the first round. -/
def advancedStore : Store := [(1, { demoNotifier with count := 3 })]

/-- Witness for C2 on a concrete run that returns at round 0. -/
theorem C2_barrier_correct_witness :
    (1, 2) ∈ wakeupSnapshot 50 demoStore ∧
    iterSteps ([advancedStore].take 1) (wakeupSnapshot 50 demoStore) = [] ∧
    ∃ sj ∈ [advancedStore].take 1, shouldKeep sj (1, 2) = false := by
  have hret : WakeupWaitNotifiers demoStore 50 [advancedStore] = some 0 := by decide
  have T := C2_barrier_correct demoStore 50 [advancedStore] 0 hret
  exact ⟨by decide, T.2.2.2.1, T.2.2.2.2 (1, 2) (by decide)⟩

end HALNotifier
